import Mathlib

/-!
Verification of the flashcard-generator's core logic against its design
specification.  The repository holds two variants of the same browser app
(`src/index.tsx` and the unnamed second source file): a line parser turning
an AI text response into term/definition flashcards, a generation pipeline
with an error taxonomy, and a small credential gate around the API key.

JavaScript strings are modelled as `List Char`; `String.prototype.trim`,
`split`, `join` and `includes` are modelled by `jsTrim`, `List.splitOn`,
`List.intercalate` and `jsIncludes`.  (`jsWhitespace` covers the ASCII
whitespace characters; JavaScript `trim` also strips exotic Unicode spaces,
which none of the inputs of interest contain.)
-/

/-- Embeds a Lean string literal as the `List Char` model of a JS string. -/
def str (s : String) : List Char := s.data

/-- The ASCII whitespace characters removed by `String.prototype.trim`. -/
def jsWhitespace (c : Char) : Bool :=
  c = ' ' || c = '\t' || c = '\n' || c = '\r' || c = Char.ofNat 11 || c = Char.ofNat 12

/-- Model of `s.trim()`: strip leading and trailing whitespace. -/
def jsTrim (s : List Char) : List Char :=
  (s.dropWhile jsWhitespace).rdropWhile jsWhitespace

/-- Model of `s.includes(sub)`: substring containment. -/
def jsIncludes (s sub : List Char) : Bool :=
  match s with
  | [] => sub.isEmpty
  | _ :: rest => sub.isPrefixOf s || jsIncludes rest sub

/-- A flashcard record: `interface Flashcard \x7b term; definition \x7d`. -/
structure Flashcard where
  term : List Char
  definition : List Char
deriving DecidableEq, Repr

/-- Per-line parser, from the `.map((line) => ...)` body shared verbatim by
both variants: split the line on `:`; if there are at least two segments and
the first trims non-empty, the term is the first segment trimmed and the
definition is the remaining segments rejoined with `:` and trimmed; a card
is produced only when that definition is non-empty. -/
def parseLine (line : List Char) : Option Flashcard :=
  let parts := line.splitOn ':'
  if 2 ≤ parts.length ∧ jsTrim (parts.headD []) ≠ [] then
    let term := jsTrim (parts.headD [])
    let definition := jsTrim ([':'].intercalate (parts.drop 1))
    if definition ≠ [] then some { term := term, definition := definition }
    else none
  else none

/-- The response parser shared by both variants: split the response text on
newlines, map each line through `parseLine`, and drop the `null` results. -/
def parseFlashcards (responseText : List Char) : List Flashcard :=
  ((responseText.splitOn '\n').map parseLine).filterMap id

/-- Gate-level errors of `activate`: an empty secret, or the external
client constructor throwing. -/
inductive GateError where
  | EmptySecret
  | InitError
deriving DecidableEq, Repr

/-- The generation pipeline's error taxonomy, one constructor per terminal
branch of the two click handlers. -/
inductive GenError where
  | NotInitialized
  | EmptyTopic
  | EmptyResponse
  | NoValidFlashcards
  | CredentialInvalid
  | UpstreamError (message : List Char)
deriving DecidableEq, Repr

/-- The process-wide mutable state: the `ai` client slot (`GoogleGenAI |
null`, modelled as the key the client was built from) and the
`sessionStorage` slot under `GEMINI_API_KEY`. -/
structure AppState where
  ai : Option (List Char)
  sessionKey : Option (List Char)
deriving DecidableEq, Repr

/-- The Gate is `Absent` when no client is initialized and no secret is
persisted in the session store. -/
def gateAbsent (st : AppState) : Prop := st.ai = none ∧ st.sessionKey = none

instance (st : AppState) : Decidable (gateAbsent st) := by
  unfold gateAbsent; infer_instance

instance {ε α : Type} [DecidableEq ε] [DecidableEq α] : DecidableEq (Except ε α) := fun x y =>
  match x, y with
  | .error a, .error b => if h : a = b then .isTrue (by rw [h]) else .isFalse (by simp [h])
  | .ok a, .ok b => if h : a = b then .isTrue (by rw [h]) else .isFalse (by simp [h])
  | .error _, .ok _ => .isFalse (by simp)
  | .ok _, .error _ => .isFalse (by simp)

/-- Result of one generation attempt: the state afterwards, the outcome,
and whether an upstream request was issued. -/
structure GenStep where
  state : AppState
  outcome : Except GenError (List Flashcard)
  upstreamCalled : Bool
deriving DecidableEq, Repr

/-- The substring of an upstream error message that flags an invalid key. -/
def invalidKeyMarker : List Char := str "API key not valid"

/-- The prompt template of `src/index.tsx` with the topic substituted. -/
def promptIndex (topic : List Char) : List Char :=
  str "Generate a list of flashcards for the topic of \"" ++ topic ++
    str "\". Each flashcard should have a term and a concise definition. Format the output as a list of \"Term: Definition\" pairs, with each pair on a new line. Ensure terms and definitions are distinct and clearly separated by a single colon. Here\x27s an example output:\n    Hello: Hola\n    Goodbye: Adiós"

/-- The prompt template of the unnamed variant with the topic substituted. -/
def promptPart (topic : List Char) : List Char :=
  str "Generate a list of flashcards for the topic of \"" ++ topic ++
    str "\". Each flashcard should have a term and a concise definition. Format the output as a list of \"Term: Definition\" pairs, with each pair on a new line. Ensure terms and definitions are distinct and clearly separated by a single colon. Do not include any introductory text. For example:\nHello: Hola\nGoodbye: AdiÃ³s"

/-- The upstream completion call is a parameter: given the prompt it either
returns `result.text` (`none` models an absent `text` field, recovered by
`?? fallback`) or throws with an error message. -/
abbrev Upstream := List Char → Except (List Char) (Option (List Char))

/-- The shared `catch` classification: fall back to a fixed message when the
thrown message is empty, and check it for the invalid-key marker. -/
def detailedErrorOf (message : List Char) : List Char :=
  if message = [] then str "An unknown error occurred" else message

/-- The `generateButton` click handler of `src/index.tsx`: check `ai`,
then the trimmed topic, then call upstream and classify the result.  Its
`catch` block only rewords the message on an invalid key; it does not touch
`ai` or the session store. -/
def generateClick (st : AppState) (topicValue : List Char) (svc : Upstream) : GenStep :=
  match st.ai with
  | none => { state := st, outcome := .error .NotInitialized, upstreamCalled := false }
  | some _ =>
    let topic := jsTrim topicValue
    if topic = [] then
      { state := st, outcome := .error .EmptyTopic, upstreamCalled := false }
    else
      match svc (promptIndex topic) with
      | .ok t =>
        let responseText := t.getD []
        if responseText ≠ [] then
          let flashcards := parseFlashcards responseText
          if 0 < flashcards.length then
            { state := st, outcome := .ok flashcards, upstreamCalled := true }
          else
            { state := st, outcome := .error .NoValidFlashcards, upstreamCalled := true }
        else
          { state := st, outcome := .error .EmptyResponse, upstreamCalled := true }
      | .error e =>
        let detailedError := detailedErrorOf e
        if jsIncludes detailedError invalidKeyMarker then
          { state := st, outcome := .error .CredentialInvalid, upstreamCalled := true }
        else
          { state := st, outcome := .error (.UpstreamError detailedError), upstreamCalled := true }

/-- `generateAndRenderCards` of the unnamed variant: check the trimmed
topic first, then `ai`, then call upstream.  An empty response is thrown
and lands in the `catch`; the invalid-key branch of that `catch` removes
the session key and de-initializes `ai`. -/
def generateAndRenderCards (st : AppState) (topicValue : List Char) (svc : Upstream) : GenStep :=
  let topic := jsTrim topicValue
  if topic = [] then
    { state := st, outcome := .error .EmptyTopic, upstreamCalled := false }
  else
    match st.ai with
    | none => { state := st, outcome := .error .NotInitialized, upstreamCalled := false }
    | some _ =>
      match svc (promptPart topic) with
      | .ok t =>
        let responseText := t.getD []
        if responseText = [] then
          { state := st, outcome := .error .EmptyResponse, upstreamCalled := true }
        else
          let flashcards := parseFlashcards responseText
          if 0 < flashcards.length then
            { state := st, outcome := .ok flashcards, upstreamCalled := true }
          else
            { state := st, outcome := .error .NoValidFlashcards, upstreamCalled := true }
      | .error e =>
        let detailedError := detailedErrorOf e
        if jsIncludes detailedError invalidKeyMarker then
          { state := { ai := none, sessionKey := none },
            outcome := .error .CredentialInvalid, upstreamCalled := true }
        else
          { state := st, outcome := .error (.UpstreamError detailedError), upstreamCalled := true }

/-- `initializeApp` of `src/index.tsx`: construct the client (`ctor` models
`new GoogleGenAI`, `none` meaning the constructor threw); on failure the
session key is removed and `ai` is left as it was. -/
def initializeApp (st : AppState) (apiKey : List Char)
    (ctor : List Char → Option (List Char)) : AppState × Bool :=
  match ctor apiKey with
  | some client => ({ st with ai := some client }, true)
  | none => ({ st with sessionKey := none }, false)

/-- `initializeAi` of the unnamed variant: construct the client; on failure
nothing changes and `false` is returned. -/
def initializeAi (st : AppState) (apiKey : List Char)
    (ctor : List Char → Option (List Char)) : AppState × Bool :=
  match ctor apiKey with
  | some client => ({ st with ai := some client }, true)
  | none => (st, false)

/-- The `saveApiKeyButton` handler of `src/index.tsx`: trim the input,
reject an empty secret, otherwise store the key and then initialize. -/
def saveApiKeyClick (st : AppState) (inputValue : List Char)
    (ctor : List Char → Option (List Char)) : AppState × Except GateError Unit :=
  let apiKey := jsTrim inputValue
  if apiKey ≠ [] then
    let stored : AppState := { st with sessionKey := some apiKey }
    let r := initializeApp stored apiKey ctor
    (r.1, if r.2 then .ok () else .error .InitError)
  else
    (st, .error .EmptySecret)

/-- The `saveApiKeyButton` handler of the unnamed variant: trim the input,
reject an empty secret, otherwise initialize first and store the key only
on success. -/
def saveApiKeyModal (st : AppState) (inputValue : List Char)
    (ctor : List Char → Option (List Char)) : AppState × Except GateError Unit :=
  let apiKey := jsTrim inputValue
  if apiKey ≠ [] then
    let r := initializeAi st apiKey ctor
    if r.2 then ({ r.1 with sessionKey := some apiKey }, .ok ())
    else (r.1, .error .InitError)
  else
    (st, .error .EmptySecret)

/-- The `changeApiKey` handler, shared shape in both variants: discard the
secret and de-initialize the client. -/
def changeApiKeyClick (_st : AppState) : AppState :=
  { ai := none, sessionKey := none }

/-- `hasCredential` of the Gate: true iff a client is initialized. -/
def hasCredential (st : AppState) : Bool := st.ai.isSome

/-- Per-line parser with the implicit indexing obligation made explicit:
`parts[0]` in JavaScript yields `undefined` on an empty array, and the
subsequent `.trim()` would then throw.  The `&&` short-circuit makes the
access safe; this instrumented variant returns `Except.error ()` exactly
where such a throw would happen. -/
def parseLineChecked (line : List Char) : Except Unit (Option Flashcard) :=
  let parts := line.splitOn ':'
  if 2 ≤ parts.length then
    match parts.head? with
    | none => .error ()
    | some p0 =>
      if jsTrim p0 ≠ [] then
        let definition := jsTrim ([':'].intercalate (parts.drop 1))
        if definition ≠ [] then .ok (some { term := jsTrim p0, definition := definition })
        else .ok none
      else .ok none
  else .ok none

/-- Run `parseLineChecked` over every line, aborting at the first error, as
an uncaught per-line exception would abort the `.map`. -/
def parseAllChecked : List (List Char) → Except Unit (List (Option Flashcard))
  | [] => Except.ok []
  | l :: ls =>
    match parseLineChecked l, parseAllChecked ls with
    | Except.ok c, Except.ok rest => Except.ok (c :: rest)
    | Except.error e, _ => Except.error e
    | _, Except.error e => Except.error e

/-- The instrumented response parser. -/
def parseFlashcardsChecked (responseText : List Char) : Except Unit (List Flashcard) :=
  match parseAllChecked (responseText.splitOn '\n') with
  | Except.ok cards => Except.ok (cards.filterMap id)
  | Except.error e => Except.error e

theorem splitOn_ne_nil (sep : Char) (l : List Char) : l.splitOn sep ≠ [] :=
  List.splitOnP_ne_nil _ l

theorem splitOn_append_cons {sep : Char} {t : List Char} (ht : sep ∉ t) (d : List Char) :
    (t ++ sep :: d).splitOn sep = t :: d.splitOn sep := by
  have h : ∀ x ∈ t, ¬((x == sep) = true) := fun x hx => by
    simp only [beq_iff_eq]
    exact fun he => ht (he ▸ hx)
  simpa [List.splitOn] using List.splitOnP_first _ _ h sep (by simp) d

theorem intercalate_splitOn_sep (sep : Char) (d : List Char) :
    [sep].intercalate (d.splitOn sep) = d := by
  exact List.intercalate_splitOn _ _

theorem not_mem_splitOn_headD (sep : Char) (l : List Char) :
    sep ∉ (l.splitOn sep).headD [] := by
  induction l with
  | nil => simp [List.splitOn]
  | cons c cs ih =>
    by_cases hc : c = sep
    · subst hc
      simp [List.splitOn, List.splitOnP_cons]
    · have hnn := List.splitOnP_ne_nil (fun x => x == sep) cs
      rcases hps : cs.splitOnP (fun x => x == sep) with _ | ⟨p, ps⟩
      · exact absurd hps hnn
      · have hcons : (c :: cs).splitOn sep = (c :: p) :: ps := by
          simp [List.splitOn, List.splitOnP_cons, hc, hps]
        rw [hcons]
        simp only [List.headD_cons]
        intro hmem
        rcases List.mem_cons.mp hmem with h | h
        · exact hc h.symm
        · apply ih
          have hh : (cs.splitOn sep).headD [] = p := by simp [List.splitOn, hps]
          rw [hh]
          exact h

theorem dropWhile_fixed_cons {α : Type} {p : α → Bool} {a : α} {l : List α}
    (h : List.dropWhile p (a :: l) = a :: l) : p a = false := by
  by_contra hpa
  have hpa' : p a = true := by revert hpa; cases p a <;> simp
  rw [List.dropWhile_cons, if_pos hpa'] at h
  have hlen : (l.dropWhile p).length ≤ l.length := (List.dropWhile_suffix p).sublist.length_le
  rw [h] at hlen
  simp only [List.length_cons] at hlen
  omega

theorem dropWhile_rdropWhile_dropWhile {α : Type} (p : α → Bool) (l : List α) :
    ((l.dropWhile p).rdropWhile p).dropWhile p = (l.dropWhile p).rdropWhile p := by
  have hyfix : (l.dropWhile p).dropWhile p = l.dropWhile p := List.dropWhile_idempotent p l
  have hpre : (l.dropWhile p).rdropWhile p <+: l.dropWhile p := List.rdropWhile_prefix p _
  rcases hzz : (l.dropWhile p).rdropWhile p with _ | ⟨a, zt⟩
  · rfl
  · rw [hzz] at hpre
    obtain ⟨tail, htail⟩ := hpre
    have heq : a :: (zt ++ tail) = l.dropWhile p := by simpa using htail
    have hfix2 : List.dropWhile p (a :: (zt ++ tail)) = a :: (zt ++ tail) := by
      rw [heq]; exact hyfix
    have hpa := dropWhile_fixed_cons hfix2
    simp [List.dropWhile_cons, hpa]

theorem jsTrim_idem (s : List Char) : jsTrim (jsTrim s) = jsTrim s := by
  unfold jsTrim
  rw [dropWhile_rdropWhile_dropWhile]
  exact List.rdropWhile_idempotent _ _

theorem jsTrim_sublist (s : List Char) : List.Sublist (jsTrim s) s := by
  unfold jsTrim
  exact ((List.rdropWhile_prefix _ _).sublist).trans ((List.dropWhile_suffix _).sublist)

theorem mem_of_mem_jsTrim {c : Char} {s : List Char} (h : c ∈ jsTrim s) : c ∈ s :=
  (jsTrim_sublist s).subset h

theorem parseLine_decomp {t d : List Char} (ht : ':' ∉ t)
    (h1 : jsTrim t ≠ []) (h2 : jsTrim d ≠ []) :
    parseLine (t ++ ':' :: d) = some { term := jsTrim t, definition := jsTrim d } := by
  have hs : (t ++ ':' :: d).splitOn ':' = t :: d.splitOn ':' := splitOn_append_cons ht d
  have hnn : d.splitOn ':' ≠ [] := splitOn_ne_nil ':' d
  have hlen : 2 ≤ (t :: d.splitOn ':').length := by
    have hp : 0 < (d.splitOn ':').length := List.length_pos.mpr hnn
    simp only [List.length_cons]
    omega
  simp only [parseLine, hs, List.headD_cons, List.drop_succ_cons, List.drop_zero,
    intercalate_splitOn_sep]
  rw [if_pos ⟨hlen, h1⟩, if_pos h2]

theorem filterMap_id_map_eq {α β : Type} (g : α → Option β) (f : α → β)
    (l : List α) (h : ∀ x ∈ l, g x = some (f x)) :
    (l.map g).filterMap id = l.map f := by
  induction l with
  | nil => rfl
  | cons a l ih =>
    have ha := h a (by simp)
    simp [List.filterMap_cons, ha, ih fun x hx => h x (by simp [hx])]

theorem length_filterMap_eq_countP {α β : Type} (f : α → Option β) (l : List α) :
    (l.filterMap f).length = l.countP fun a => (f a).isSome := by
  induction l with
  | nil => rfl
  | cons a l ih =>
    cases h : f a <;> simp [List.filterMap_cons, h, List.countP_cons, ih]

theorem parseLine_some_inv {line : List Char} {card : Flashcard}
    (h : parseLine line = some card) :
    card.term = jsTrim ((line.splitOn ':').headD []) ∧
    card.term ≠ [] ∧
    card.definition = jsTrim ([':'].intercalate ((line.splitOn ':').drop 1)) ∧
    card.definition ≠ [] := by
  simp only [parseLine] at h
  split_ifs at h with h1 h2
  · injection h with h'
    subst h'
    exact ⟨rfl, h1.2, rfl, h2⟩

theorem parseFlashcards_eq_filterMap (text : List Char) :
    parseFlashcards text = (text.splitOn '\n').filterMap parseLine := by
  simp [parseFlashcards, List.filterMap_map]

theorem parseLineChecked_eq (line : List Char) :
    parseLineChecked line = Except.ok (parseLine line) := by
  have hnn : line.splitOn ':' ≠ [] := splitOn_ne_nil ':' line
  rcases hps : line.splitOn ':' with _ | ⟨p0, ps⟩
  · exact absurd hps hnn
  · rcases ps with _ | ⟨p1, ps2⟩
    · simp [parseLineChecked, parseLine, hps]
    · by_cases h2 : jsTrim p0 = [] <;>
        by_cases h3 : jsTrim ([':'].intercalate (p1 :: ps2)) = [] <;>
          simp [parseLineChecked, parseLine, hps, h2, h3, Nat.le_add_left]

theorem parseAllChecked_eq (ls : List (List Char)) :
    parseAllChecked ls = Except.ok (ls.map parseLine) := by
  induction ls with
  | nil => rfl
  | cons l ls ih => simp [parseAllChecked, parseLineChecked_eq, ih]

/-- C1: parsing a response consisting of lines of the shape
`Term: Definition` yields exactly one flashcard per line, in source line
order, with the stated terms and definitions. -/
theorem parse_wellformed_lines (pairs : List (List Char × List Char))
    (h : ∀ p ∈ pairs, ':' ∉ p.1 ∧ '\n' ∉ p.1 ∧ '\n' ∉ p.2 ∧
      jsTrim p.1 = p.1 ∧ p.1 ≠ [] ∧ jsTrim p.2 ≠ []) :
    parseFlashcards (['\n'].intercalate (pairs.map fun p => p.1 ++ ':' :: p.2))
      = pairs.map fun p => { term := p.1, definition := jsTrim p.2 } := by
  rcases pairs with _ | ⟨q, qs⟩
  · rfl
  · have hnl : ∀ l ∈ (q :: qs).map (fun p => p.1 ++ ':' :: p.2), '\n' ∉ l := by
      intro l hl
      simp only [List.mem_map] at hl
      obtain ⟨p, hp, rfl⟩ := hl
      obtain ⟨_, h2, h3, _, _, _⟩ := h p hp
      intro hmem
      rcases List.mem_append.mp hmem with hm | hm
      · exact h2 hm
      · rcases List.mem_cons.mp hm with hm | hm
        · exact absurd hm (by decide)
        · exact h3 hm
    have hsplit : (['\n'].intercalate ((q :: qs).map fun p => p.1 ++ ':' :: p.2)).splitOn '\n'
        = (q :: qs).map fun p => p.1 ++ ':' :: p.2 :=
      List.splitOn_intercalate _ '\n' hnl (by simp)
    unfold parseFlashcards
    rw [hsplit, List.map_map]
    apply filterMap_id_map_eq
    intro p hp
    obtain ⟨h1, _, _, h4, h5, h6⟩ := h p hp
    have hd := parseLine_decomp h1 (by rw [h4]; exact h5) h6
    simpa [h4] using hd

/-- C1 witness: the stubbed response for the topic `Colors` yields exactly
the two expected flashcards, in order. -/
theorem parse_wellformed_lines_witness :
    parseFlashcards (str "Red: A warm color\nBlue: A cool color")
      = [{ term := str "Red", definition := str "A warm color" },
         { term := str "Blue", definition := str "A cool color" }] := by
  have h := parse_wellformed_lines
    [(str "Red", str " A warm color"), (str "Blue", str " A cool color")] (by decide)
  have e1 : ['\n'].intercalate
      ([(str "Red", str " A warm color"), (str "Blue", str " A cool color")].map
        fun p => p.1 ++ ':' :: p.2)
      = str "Red: A warm color\nBlue: A cool color" := by decide
  rw [e1] at h
  rw [h]
  decide

/-- C2: for a line made of a colon-free first segment that trims non-empty,
a colon, and a remainder that trims non-empty, the term is the first
segment trimmed and the definition is the whole remainder trimmed, so
colons inside the definition are preserved. -/
theorem parseLine_colon_preserved (t d : List Char)
    (ht : ':' ∉ t) (h1 : jsTrim t ≠ []) (h2 : jsTrim d ≠ []) :
    parseLine (t ++ ':' :: d) = some { term := jsTrim t, definition := jsTrim d } :=
  parseLine_decomp ht h1 h2

/-- C2 witness: `Ratio: 3:2` yields the flashcard `Ratio` / `3:2`. -/
theorem parseLine_colon_preserved_witness :
    parseLine (str "Ratio: 3:2") = some { term := str "Ratio", definition := str "3:2" } := by
  have h := parseLine_colon_preserved (str "Ratio") (str " 3:2") (by decide) (by decide) (by decide)
  have e : str "Ratio" ++ ':' :: str " 3:2" = str "Ratio: 3:2" := by decide
  rw [e] at h
  rw [h]
  decide

/-- C3: a line yields a flashcard iff it splits on `:` into at least two
segments, the first segment trims non-empty, and the remaining segments
rejoined with `:` trim non-empty; every other line contributes zero
flashcards, so the output has exactly one card per candidate line. -/
theorem parseLine_candidate_iff :
    (∀ line : List Char,
      ((parseLine line).isSome = true ↔
        2 ≤ (line.splitOn ':').length ∧
        jsTrim ((line.splitOn ':').headD []) ≠ [] ∧
        jsTrim ([':'].intercalate ((line.splitOn ':').drop 1)) ≠ [])) ∧
    (∀ text : List Char,
      (parseFlashcards text).length
        = (text.splitOn '\n').countP fun line => (parseLine line).isSome) := by
  constructor
  · intro line
    simp only [parseLine]
    split_ifs with h1 h2
    · exact ⟨fun _ => ⟨h1.1, h1.2, h2⟩, fun _ => rfl⟩
    · exact ⟨fun hs => absurd hs (by simp), fun hc => absurd hc.2.2 h2⟩
    · exact ⟨fun hs => absurd hs (by simp), fun hc => absurd ⟨hc.1, hc.2.1⟩ h1⟩
  · intro text
    rw [parseFlashcards_eq_filterMap]
    exact length_filterMap_eq_countP parseLine (text.splitOn '\n')

/-- C4 counterexample: in the `src/index.tsx` variant an upstream error
containing the invalid-key marker is surfaced as `CredentialInvalid`, yet
the gate is not left `Absent`: the client and the stored secret survive the
`catch` block. -/
theorem credentialInvalid_gate_cex :
    (generateClick { ai := some (str "k"), sessionKey := some (str "k") } (str "Colors")
        fun _ => Except.error (str "API key not valid.")).outcome
      = Except.error GenError.CredentialInvalid
    ∧ ¬ gateAbsent (generateClick { ai := some (str "k"), sessionKey := some (str "k") }
        (str "Colors") fun _ => Except.error (str "API key not valid.")).state := by
  decide

/-- C4 (amended): with an Active credential and a non-empty topic, an
upstream error whose message contains the invalid-key marker is surfaced as
`CredentialInvalid` in both variants; the unnamed variant moreover removes
the secret and de-initializes the client (gate `Absent`), while the
`src/index.tsx` variant leaves the credential in place. -/
theorem credentialInvalid_classified (st : AppState) (c topicValue msg : List Char)
    (hai : st.ai = some c) (ht : jsTrim topicValue ≠ [])
    (hm : jsIncludes msg invalidKeyMarker = true) :
    (generateClick st topicValue fun _ => Except.error msg).outcome
        = Except.error GenError.CredentialInvalid
    ∧ (generateClick st topicValue fun _ => Except.error msg).state = st
    ∧ (generateAndRenderCards st topicValue fun _ => Except.error msg).outcome
        = Except.error GenError.CredentialInvalid
    ∧ gateAbsent (generateAndRenderCards st topicValue fun _ => Except.error msg).state := by
  have hne : msg ≠ [] := by
    rintro rfl
    exact absurd hm (by decide)
  have hdet : detailedErrorOf msg = msg := if_neg hne
  simp [generateClick, generateAndRenderCards, hai, ht, hdet, hm, gateAbsent]

/-- C4 witness: a concrete invalid-key upstream error under an active
credential yields `CredentialInvalid` and, in the unnamed variant, an
`Absent` gate. -/
theorem credentialInvalid_classified_witness :
    (generateAndRenderCards { ai := some (str "k"), sessionKey := some (str "k") } (str "Colors")
        fun _ => Except.error (str "API key not valid.")).outcome
      = Except.error GenError.CredentialInvalid
    ∧ gateAbsent (generateAndRenderCards { ai := some (str "k"), sessionKey := some (str "k") }
        (str "Colors") fun _ => Except.error (str "API key not valid.")).state := by
  have h := credentialInvalid_classified { ai := some (str "k"), sessionKey := some (str "k") }
    (str "k") (str "Colors") (str "API key not valid.") rfl (by decide) (by decide)
  exact ⟨h.2.2.1, h.2.2.2⟩

/-- C5 counterexample: in the `src/index.tsx` variant a whitespace-only
topic with no credential fails with `NotInitialized`, not `EmptyTopic`. -/
theorem emptyTopic_cex :
    (generateClick { ai := none, sessionKey := none } (str "   ")
        fun _ => Except.ok (some (str "A: B"))).outcome
      = Except.error GenError.NotInitialized
    ∧ (generateClick { ai := none, sessionKey := none } (str "   ")
        fun _ => Except.ok (some (str "A: B"))).outcome
      ≠ Except.error GenError.EmptyTopic := by
  decide

/-- C5 (amended): a topic whose trimmed value is empty never issues an
upstream request in either variant; the unnamed variant fails with
`EmptyTopic` in every state, and the `src/index.tsx` variant fails with
`EmptyTopic` whenever a credential is Active (with none, its
`NotInitialized` check fires first). -/
theorem emptyTopic_no_upstream (st : AppState) (topicValue : List Char) (svc : Upstream)
    (h : jsTrim topicValue = []) :
    (generateAndRenderCards st topicValue svc).outcome = Except.error GenError.EmptyTopic
    ∧ (generateAndRenderCards st topicValue svc).upstreamCalled = false
    ∧ (generateClick st topicValue svc).upstreamCalled = false
    ∧ ∀ c, st.ai = some c →
        (generateClick st topicValue svc).outcome = Except.error GenError.EmptyTopic := by
  refine ⟨by simp [generateAndRenderCards, h], by simp [generateAndRenderCards, h], ?_, ?_⟩
  · cases hai : st.ai with
    | none => simp [generateClick, hai]
    | some c => simp [generateClick, hai, h]
  · intro c hai
    simp [generateClick, hai, h]

/-- C5 witness: a whitespace-only topic under an active credential fails
with `EmptyTopic` and issues no upstream request. -/
theorem emptyTopic_no_upstream_witness :
    (generateAndRenderCards { ai := some (str "k"), sessionKey := none } (str "   ")
        fun _ => Except.ok (some (str "A: B"))).outcome = Except.error GenError.EmptyTopic
    ∧ (generateClick { ai := some (str "k"), sessionKey := none } (str "   ")
        fun _ => Except.ok (some (str "A: B"))).upstreamCalled = false := by
  have h := emptyTopic_no_upstream { ai := some (str "k"), sessionKey := none } (str "   ")
    (fun _ => Except.ok (some (str "A: B"))) (by decide)
  exact ⟨h.1, h.2.2.1⟩

/-- C6 counterexample: in the unnamed variant a call with no credential and
a whitespace-only topic fails with `EmptyTopic`, not `NotInitialized`. -/
theorem notInitialized_cex :
    (generateAndRenderCards { ai := none, sessionKey := none } (str "   ")
        fun _ => Except.ok (some (str "A: B"))).outcome = Except.error GenError.EmptyTopic
    ∧ (generateAndRenderCards { ai := none, sessionKey := none } (str "   ")
        fun _ => Except.ok (some (str "A: B"))).outcome
      ≠ Except.error GenError.NotInitialized := by
  decide

/-- C6 (amended): with no Active credential no upstream request is issued
in either variant; the `src/index.tsx` variant fails with `NotInitialized`
for every topic, and the unnamed variant fails with `NotInitialized`
whenever the trimmed topic is non-empty (a whitespace-only topic fails with
`EmptyTopic` first). -/
theorem notInitialized_no_upstream (st : AppState) (topicValue : List Char) (svc : Upstream)
    (h : st.ai = none) :
    (generateClick st topicValue svc).outcome = Except.error GenError.NotInitialized
    ∧ (generateClick st topicValue svc).upstreamCalled = false
    ∧ (generateAndRenderCards st topicValue svc).upstreamCalled = false
    ∧ (jsTrim topicValue ≠ [] →
        (generateAndRenderCards st topicValue svc).outcome
          = Except.error GenError.NotInitialized) := by
  refine ⟨by simp [generateClick, h], by simp [generateClick, h], ?_, ?_⟩
  · by_cases ht : jsTrim topicValue = []
    · simp [generateAndRenderCards, ht]
    · simp [generateAndRenderCards, ht, h]
  · intro ht
    simp [generateAndRenderCards, ht, h]

/-- C6 witness: with no credential and a non-empty topic, both variants
fail with `NotInitialized` and issue no upstream request. -/
theorem notInitialized_no_upstream_witness :
    (generateClick { ai := none, sessionKey := none } (str "Colors")
        fun _ => Except.ok (some (str "A: B"))).outcome = Except.error GenError.NotInitialized
    ∧ (generateAndRenderCards { ai := none, sessionKey := none } (str "Colors")
        fun _ => Except.ok (some (str "A: B"))).outcome
      = Except.error GenError.NotInitialized := by
  have h := notInitialized_no_upstream { ai := none, sessionKey := none } (str "Colors")
    (fun _ => Except.ok (some (str "A: B"))) rfl
  exact ⟨h.1, h.2.2.2 (by decide)⟩

/-- C7: under an Active credential and a non-empty topic, an empty response
text fails with `EmptyResponse` while a non-empty response with no
parseable pair (blank lines only) fails with `NoValidFlashcards`, and the
two classifications are distinct. -/
theorem emptyResponse_vs_noValid (st : AppState) (c topicValue : List Char)
    (hai : st.ai = some c) (ht : jsTrim topicValue ≠ []) :
    (generateClick st topicValue fun _ => Except.ok (some [])).outcome
        = Except.error GenError.EmptyResponse
    ∧ (generateAndRenderCards st topicValue fun _ => Except.ok (some [])).outcome
        = Except.error GenError.EmptyResponse
    ∧ (generateClick st topicValue fun _ => Except.ok (some (str "\n\n"))).outcome
        = Except.error GenError.NoValidFlashcards
    ∧ (generateAndRenderCards st topicValue fun _ => Except.ok (some (str "\n\n"))).outcome
        = Except.error GenError.NoValidFlashcards
    ∧ GenError.EmptyResponse ≠ GenError.NoValidFlashcards := by
  have hp : parseFlashcards (str "\n\n") = [] := by decide
  have hne2 : str "\n\n" ≠ [] := by decide
  refine ⟨by simp [generateClick, hai, ht], by simp [generateAndRenderCards, hai, ht],
    ?_, ?_, by decide⟩
  · simp [generateClick, hai, ht, hp, hne2]
  · simp [generateAndRenderCards, hai, ht, hp, hne2]

/-- C7 witness: concrete empty and blank-lines-only responses under an
active credential produce the two distinct errors. -/
theorem emptyResponse_vs_noValid_witness :
    (generateClick { ai := some (str "k"), sessionKey := none } (str "Colors")
        fun _ => Except.ok (some [])).outcome = Except.error GenError.EmptyResponse
    ∧ (generateAndRenderCards { ai := some (str "k"), sessionKey := none } (str "Colors")
        fun _ => Except.ok (some (str "\n\n"))).outcome
      = Except.error GenError.NoValidFlashcards := by
  have h := emptyResponse_vs_noValid { ai := some (str "k"), sessionKey := none } (str "k")
    (str "Colors") rfl (by decide)
  exact ⟨h.1, h.2.2.2.1⟩

/-- C8: `activate` fails with `EmptySecret` for a whitespace-only secret,
leaving everything unchanged, in both variants; and when the external
client constructor fails on a non-empty secret while no credential is
Active, both variants return `InitError` and leave the gate `Absent` (no
client, no persisted key). -/
theorem activate_gate (st : AppState) (inputValue : List Char)
    (ctor : List Char → Option (List Char)) :
    (jsTrim inputValue = [] →
      saveApiKeyClick st inputValue ctor = (st, Except.error GateError.EmptySecret)
      ∧ saveApiKeyModal st inputValue ctor = (st, Except.error GateError.EmptySecret))
    ∧ (jsTrim inputValue ≠ [] → ctor (jsTrim inputValue) = none → gateAbsent st →
      (saveApiKeyClick st inputValue ctor).2 = Except.error GateError.InitError
      ∧ gateAbsent (saveApiKeyClick st inputValue ctor).1
      ∧ (saveApiKeyModal st inputValue ctor).2 = Except.error GateError.InitError
      ∧ gateAbsent (saveApiKeyModal st inputValue ctor).1) := by
  constructor
  · intro h
    constructor <;> simp [saveApiKeyClick, saveApiKeyModal, h]
  · intro h hc habs
    obtain ⟨ha, hk⟩ := habs
    refine ⟨?_, ?_, ?_, ?_⟩ <;>
      simp [saveApiKeyClick, saveApiKeyModal, initializeApp, initializeAi, h, hc,
        gateAbsent, ha, hk]

/-- C8 witness: a whitespace-only secret is rejected as `EmptySecret`, and
a failing constructor on a fresh state yields `InitError` with the gate
left `Absent`. -/
theorem activate_gate_witness :
    saveApiKeyClick { ai := none, sessionKey := none } (str "   ") (fun k => some k)
        = ({ ai := none, sessionKey := none }, Except.error GateError.EmptySecret)
    ∧ (saveApiKeyModal { ai := none, sessionKey := none } (str "key") (fun _ => none)).2
        = Except.error GateError.InitError
    ∧ gateAbsent (saveApiKeyClick { ai := none, sessionKey := none } (str "key")
        (fun _ => none)).1 := by
  have h1 := (activate_gate { ai := none, sessionKey := none } (str "   ") (fun k => some k)).1
    (by decide)
  have h2 := (activate_gate { ai := none, sessionKey := none } (str "key") (fun _ => none)).2
    (by decide) rfl ⟨rfl, rfl⟩
  exact ⟨h1.1, h2.2.2.1, h2.2.1⟩

/-- C9: the response parser is total: the instrumented parser, which makes
the implicit `parts[0]` indexing obligation explicit, never reaches an
error on any input text and agrees with the pure parser. -/
theorem parser_total (text : List Char) :
    parseFlashcardsChecked text = Except.ok (parseFlashcards text) := by
  simp [parseFlashcardsChecked, parseAllChecked_eq, parseFlashcards]

/-- C10: every flashcard the parser produces has a non-empty colon-free
term and a non-empty definition, both already trimmed. -/
theorem parser_output_invariant (text : List Char) (card : Flashcard)
    (h : card ∈ parseFlashcards text) :
    card.term ≠ [] ∧ card.definition ≠ [] ∧ ':' ∉ card.term
    ∧ jsTrim card.term = card.term ∧ jsTrim card.definition = card.definition := by
  rw [parseFlashcards_eq_filterMap] at h
  obtain ⟨line, hline, hp⟩ := List.mem_filterMap.mp h
  obtain ⟨hterm, htne, hdef, hdne⟩ := parseLine_some_inv hp
  refine ⟨htne, hdne, ?_, ?_, ?_⟩
  · intro hc
    have hmem : ':' ∈ (line.splitOn ':').headD [] := mem_of_mem_jsTrim (hterm ▸ hc)
    exact not_mem_splitOn_headD ':' line hmem
  · rw [hterm]
    exact jsTrim_idem _
  · rw [hdef]
    exact jsTrim_idem _

/-- C10 witness: the invariant holds for the card parsed from a concrete
response line. -/
theorem parser_output_invariant_witness :
    str "Red" ≠ [] ∧ str "A warm color" ≠ [] ∧ ':' ∉ str "Red"
    ∧ jsTrim (str "Red") = str "Red" ∧ jsTrim (str "A warm color") = str "A warm color" := by
  have h := parser_output_invariant (str "Red: A warm color")
    { term := str "Red", definition := str "A warm color" } (by decide)
  exact h
